import Mathlib

/-!
Verification of the Ogre mesh tooling: a shallow embedding of
`MeshToObj.py` (class `OgreXMLToOBJ`: geometry-buffer merging, submesh
assembly, OBJ face-line emission) and `recalculate_normals.py` (the
normal-recalculation pass), with theorems settling the claims about them.

Scalar values carried by the exporter are modelled as rationals (the
exporter only copies, negates and compares them); the normal
recalculator performs square roots and divisions, so its vectors are
modelled over the reals.
-/

namespace MeshToObj

/-- A 3-component value (position or normal) read from the tree. -/
abbrev V3 := ℚ × ℚ × ℚ

/-- A 2-component texture coordinate read from the tree. -/
abbrev V2 := ℚ × ℚ

/-- A `<vertex>` element: optional `<position>`, `<normal>` and
`<texcoord>` children.  Missing `x`/`y`/`z`/`u`/`v` attributes default
to `0` at read time; the numeric payload is folded into the option.
The `texcoord` field stands for the first `texcoord*`-tagged child that
the fallback scan of `_parse_geometry` locates. -/
structure VertexElem where
  position : Option V3
  normal : Option V3
  texcoord : Option V2
deriving DecidableEq

/-- A `<vertexbuffer>` element: its `positions` / `normals` flags (the
string comparison with `"true"` already performed), its
`texture_coords` count attribute, and its `<vertex>` children. -/
structure VertexBufferElem where
  positions : Bool
  normals : Bool
  texture_coords : Nat
  vertices : List VertexElem
deriving DecidableEq

/-- A geometry element (`<sharedgeometry>` or a submesh `<geometry>`):
an optional `vertexcount` attribute and the `<vertexbuffer>` children
in document order. -/
structure GeometryElem where
  vertexcount : Option Nat
  vertexbuffers : List VertexBufferElem
deriving DecidableEq

/-- A `<face>` element: the three vertex-index attributes, read with
`int(...)`. -/
structure FaceElem where
  v1 : ℤ
  v2 : ℤ
  v3 : ℤ
deriving DecidableEq

/-- A `<submesh>` element.  An absent `<faces>` child behaves exactly
like an empty face list in `_parse_submesh`, so the two are collapsed. -/
structure SubmeshElem where
  usesharedvertices : Bool
  geometry : Option GeometryElem
  faces : List FaceElem
deriving DecidableEq

/-- A mesh document: optional `<sharedgeometry>` and the `<submesh>`
children in declaration order. -/
structure MeshElem where
  sharedgeometry : Option GeometryElem
  submeshes : List SubmeshElem
deriving DecidableEq

/-- `vertex_count` as computed at the top of `_parse_geometry`: the
explicit `vertexcount` attribute if present, otherwise the number of
`<vertex>` children of the first `<vertexbuffer>`, otherwise `0`
(the early-return case, which contributes nothing). -/
def vertexCountOf (g : GeometryElem) : Nat :=
  match g.vertexcount with
  | some n => n
  | none =>
    match g.vertexbuffers with
    | vb :: _ => vb.vertices.length
    | [] => 0

/-- The per-vertex containers of `_parse_geometry` while merging:
`local_verts` / `local_normals` / `local_uvs` as maps from vertex index
to the optionally-written slot, plus the `any_normals` / `any_uvs`
flags.  (The Python lists have fixed length `vertex_count` and are only
ever written at indices below it, so the map view is faithful.) -/
structure GeomAcc where
  verts : Nat → Option V3
  normals : Nat → Option V3
  uvs : Nat → Option V2
  anyNormals : Bool
  anyUvs : Bool

/-- The initial merge state: all slots unset, both flags false. -/
def initAcc : GeomAcc :=
  { verts := fun _ => none, normals := fun _ => none, uvs := fun _ => none,
    anyNormals := false, anyUvs := false }

/-- The on-read conversion applied to a texture coordinate by
`_parse_geometry`: `local_uvs[i] = (u, 1.0 - v)`. -/
def texcoordConvert (u v : ℚ) : V2 := (u, 1 - v)

/-- One iteration of the inner `for i, vertex in enumerate(...)` loop of
`_parse_geometry`: writes position / normal / texcoord data of the
vertex into slot `i`, gated by the buffer's declared attribute flags and
the presence of the corresponding child element. -/
def mergeVertex (hasPos hasNorm hasTex : Bool) (acc : GeomAcc)
    (iv : Nat × VertexElem) : GeomAcc :=
  let a1 :=
    match hasPos, iv.2.position with
    | true, some p =>
      { acc with verts := fun j => if j = iv.1 then some p else acc.verts j }
    | _, _ => acc
  let a2 :=
    match hasNorm, iv.2.normal with
    | true, some nv =>
      { a1 with normals := fun j => if j = iv.1 then some nv else a1.normals j,
                anyNormals := true }
    | _, _ => a1
  match hasTex, iv.2.texcoord with
  | true, some uv =>
    { a2 with uvs := fun j => if j = iv.1 then some (texcoordConvert uv.1 uv.2)
                              else a2.uvs j,
              anyUvs := true }
  | _, _ => a2

/-- The indexed vertex list a buffer contributes: `enumerate` truncated
at `vertex_count` (the `if i >= vertex_count: break` guard). -/
def bufList (n : Nat) (vb : VertexBufferElem) : List (Nat × VertexElem) :=
  (vb.vertices.take n).enum

/-- `has_texcoords = tex_coords > 0`. -/
def texFlag (vb : VertexBufferElem) : Bool := decide (0 < vb.texture_coords)

/-- One iteration of the outer `for vb in geom_elem.findall('vertexbuffer')`
loop of `_parse_geometry`. -/
def mergeBuffer (n : Nat) (acc : GeomAcc) (vb : VertexBufferElem) : GeomAcc :=
  (bufList n vb).foldl (mergeVertex vb.positions vb.normals (texFlag vb)) acc

/-- The merge state after all vertex buffers of a geometry element have
been processed. -/
def mergedAcc (g : GeometryElem) : GeomAcc :=
  g.vertexbuffers.foldl (mergeBuffer (vertexCountOf g)) initAcc

/-- The three sequences a geometry block contributes to the global
arrays. -/
structure GeomResult where
  verts : List V3
  normals : List V3
  uvs : List V2
deriving DecidableEq

/-- The default-filling tail of `_parse_geometry`: unset positions become
`(0,0,0)`; the normal sequence is emptied unless `any_normals`, in which
case unset normals become `(0,1,0)`; likewise for uvs with `(0,0)`. -/
def parseGeometry (g : GeometryElem) : GeomResult :=
  let n := vertexCountOf g
  let acc := mergedAcc g
  { verts := (List.range n).map (fun i => (acc.verts i).getD (0, 0, 0))
  , normals :=
      if acc.anyNormals then
        (List.range n).map (fun i => (acc.normals i).getD (0, 1, 0))
      else []
  , uvs :=
      if acc.anyUvs then
        (List.range n).map (fun i => (acc.uvs i).getD (0, 0))
      else [] }

/-- The accumulating converter state: `self.vertices` / `self.normals` /
`self.uvs` / `self.submeshes` (a submesh record reduced to its resolved
face list; material and index play no role in the claims). -/
structure MeshState where
  vertices : List V3
  normals : List V3
  uvs : List V2
  submeshes : List (List (ℤ × ℤ × ℤ))
deriving DecidableEq

/-- The empty converter state of `__init__`. -/
def initState : MeshState := { vertices := [], normals := [], uvs := [], submeshes := [] }

/-- Appending a geometry block's merged sequences to the global arrays
(the `self.vertices.extend(...)` tail of `_parse_geometry`; the normal
and uv extends are no-ops when the corresponding sequence is empty). -/
def extendState (st : MeshState) (r : GeomResult) : MeshState :=
  { st with vertices := st.vertices ++ r.verts,
            normals := st.normals ++ r.normals,
            uvs := st.uvs ++ r.uvs }

/-- `_parse_submesh`: compute the vertex-index offset (`0` when shared,
the pre-merge global vertex count otherwise), merge the local geometry
block if present, and resolve each face's indices via
`source + offset + 1`. -/
def parseSubmesh (st : MeshState) (sm : SubmeshElem) : MeshState :=
  let offset : ℤ := if sm.usesharedvertices then 0 else (st.vertices.length : ℤ)
  let st' :=
    if sm.usesharedvertices then st
    else
      match sm.geometry with
      | some g => extendState st (parseGeometry g)
      | none => st
  let faces := sm.faces.map
    (fun f => (f.v1 + offset + 1, f.v2 + offset + 1, f.v3 + offset + 1))
  { st' with submeshes := st'.submeshes ++ [faces] }

/-- `parse_mesh_xml`: merge the shared geometry block first (if any),
then process the submeshes in declaration order. -/
def parseMeshXml (m : MeshElem) : MeshState :=
  let st0 :=
    match m.sharedgeometry with
    | some g => extendState initState (parseGeometry g)
    | none => initState
  m.submeshes.foldl parseSubmesh st0

/-- All geometry blocks of a mesh in processing order: the shared block
(if any) followed by the local blocks of the non-shared submeshes. -/
def meshBlocks (m : MeshElem) : List GeometryElem :=
  (match m.sharedgeometry with | some g => [g] | none => []) ++
    m.submeshes.filterMap
      (fun sm => if sm.usesharedvertices then none else sm.geometry)

/-- `have_uvs` of `write_obj`. -/
def haveUvs (st : MeshState) : Bool :=
  decide (st.uvs.length = st.vertices.length) && decide (0 < st.uvs.length)

/-- `have_normals` of `write_obj`. -/
def haveNormals (st : MeshState) : Bool :=
  decide (st.normals.length = st.vertices.length) && decide (0 < st.normals.length)

/-- The four face-line encodings of `write_obj`. -/
inductive FaceFormat where
  | posUvNormal
  | posUv
  | posNormal
  | posOnly
deriving DecidableEq, Repr

/-- The encoding chosen by the `if have_uvs and have_normals / elif ...`
chain in `write_obj`. -/
def faceFormat (hu hn : Bool) : FaceFormat :=
  if hu && hn then .posUvNormal
  else if hu then .posUv
  else if hn then .posNormal
  else .posOnly

/-- Whether a face-line encoding carries normal references (`v//vn` or
`v/vt/vn`). -/
def carriesNormal : FaceFormat → Bool
  | .posUvNormal => true
  | .posNormal => true
  | _ => false

/-- The face lines emitted by `write_obj`, in order, as
(encoding, resolved index triple) pairs: every submesh's faces with the
single mesh-wide encoding. -/
def objFaceLines (st : MeshState) : List (FaceFormat × (ℤ × ℤ × ℤ)) :=
  st.submeshes.flatMap
    (fun faces => faces.map (fun f => (faceFormat (haveUvs st) (haveNormals st), f)))

/-! ### Characterisation of the merge fold

`lastOr l o` is the last element of `l` (or `o` when `l` is empty): the
value left in a slot after a sequence of overwrites `l` starting from
contents `o`. -/

/-- Last element of `l`, else `o`. -/
def lastOr {α : Type} (l : List α) (o : Option α) : Option α :=
  match l with
  | [] => o
  | a :: t => lastOr t (some a)

theorem lastOr_append {α : Type} (l₁ l₂ : List α) (o : Option α) :
    lastOr (l₁ ++ l₂) o = lastOr l₂ (lastOr l₁ o) := by
  induction l₁ generalizing o with
  | nil => rfl
  | cons a t ih => simp [lastOr, ih]

/-- The position values supplied for slot `i` by an indexed vertex list,
gated by the buffer's `positions` flag, in order. -/
def posSupplies (hasPos : Bool) (l : List (Nat × VertexElem)) (i : Nat) : List V3 :=
  if hasPos then
    l.filterMap (fun jv => if jv.1 = i then jv.2.position else none)
  else []

/-- The normal values supplied for slot `i`, gated by `normals`. -/
def normSupplies (hasNorm : Bool) (l : List (Nat × VertexElem)) (i : Nat) : List V3 :=
  if hasNorm then
    l.filterMap (fun jv => if jv.1 = i then jv.2.normal else none)
  else []

/-- The (already V-flipped) texture coordinates supplied for slot `i`,
gated by `has_texcoords`. -/
def uvSupplies (hasTex : Bool) (l : List (Nat × VertexElem)) (i : Nat) : List V2 :=
  if hasTex then
    l.filterMap
      (fun jv => if jv.1 = i then jv.2.texcoord.map (fun p => texcoordConvert p.1 p.2)
                 else none)
  else []

theorem mergeVertex_verts (hp hn ht : Bool) (acc : GeomAcc)
    (jv : Nat × VertexElem) (i : Nat) :
    (mergeVertex hp hn ht acc jv).verts i =
      lastOr (posSupplies hp [jv] i) (acc.verts i) := by
  obtain ⟨j, po, no, uo⟩ := jv
  rcases eq_or_ne j i with hji | hji
  · subst hji
    cases po <;> cases no <;> cases uo <;>
      cases hp <;> cases hn <;> cases ht <;>
        simp [mergeVertex, posSupplies, lastOr]
  · cases po <;> cases no <;> cases uo <;>
      cases hp <;> cases hn <;> cases ht <;>
        simp [mergeVertex, posSupplies, lastOr, hji, hji.symm]

theorem mergeVertex_normals (hp hn ht : Bool) (acc : GeomAcc)
    (jv : Nat × VertexElem) (i : Nat) :
    (mergeVertex hp hn ht acc jv).normals i =
      lastOr (normSupplies hn [jv] i) (acc.normals i) := by
  obtain ⟨j, po, no, uo⟩ := jv
  rcases eq_or_ne j i with hji | hji
  · subst hji
    cases po <;> cases no <;> cases uo <;>
      cases hp <;> cases hn <;> cases ht <;>
        simp [mergeVertex, normSupplies, lastOr]
  · cases po <;> cases no <;> cases uo <;>
      cases hp <;> cases hn <;> cases ht <;>
        simp [mergeVertex, normSupplies, lastOr, hji, hji.symm]

theorem mergeVertex_uvs (hp hn ht : Bool) (acc : GeomAcc)
    (jv : Nat × VertexElem) (i : Nat) :
    (mergeVertex hp hn ht acc jv).uvs i =
      lastOr (uvSupplies ht [jv] i) (acc.uvs i) := by
  obtain ⟨j, po, no, uo⟩ := jv
  rcases eq_or_ne j i with hji | hji
  · subst hji
    cases po <;> cases no <;> cases uo <;>
      cases hp <;> cases hn <;> cases ht <;>
        simp [mergeVertex, uvSupplies, lastOr]
  · cases po <;> cases no <;> cases uo <;>
      cases hp <;> cases hn <;> cases ht <;>
        simp [mergeVertex, uvSupplies, lastOr, hji, hji.symm]

theorem mergeVertex_anyNormals (hp hn ht : Bool) (acc : GeomAcc)
    (jv : Nat × VertexElem) :
    (mergeVertex hp hn ht acc jv).anyNormals =
      (acc.anyNormals || (hn && jv.2.normal.isSome)) := by
  obtain ⟨j, po, no, uo⟩ := jv
  cases po <;> cases no <;> cases uo <;>
    cases hp <;> cases hn <;> cases ht <;> simp [mergeVertex]

theorem mergeVertex_anyUvs (hp hn ht : Bool) (acc : GeomAcc)
    (jv : Nat × VertexElem) :
    (mergeVertex hp hn ht acc jv).anyUvs =
      (acc.anyUvs || (ht && jv.2.texcoord.isSome)) := by
  obtain ⟨j, po, no, uo⟩ := jv
  cases po <;> cases no <;> cases uo <;>
    cases hp <;> cases hn <;> cases ht <;> simp [mergeVertex]

theorem posSupplies_nil (hp : Bool) (i : Nat) : posSupplies hp [] i = [] := by
  cases hp <;> simp [posSupplies]

theorem normSupplies_nil (hn : Bool) (i : Nat) : normSupplies hn [] i = [] := by
  cases hn <;> simp [normSupplies]

theorem uvSupplies_nil (ht : Bool) (i : Nat) : uvSupplies ht [] i = [] := by
  cases ht <;> simp [uvSupplies]

theorem filterMap_one_append {α β : Type} (f : α → Option β) (a : α) (l : List α) :
    List.filterMap f (a :: l) = List.filterMap f [a] ++ List.filterMap f l := by
  rcases h : f a with _ | b <;> simp [List.filterMap_cons, h]

theorem posSupplies_cons (hp : Bool) (jv : Nat × VertexElem)
    (t : List (Nat × VertexElem)) (i : Nat) :
    posSupplies hp (jv :: t) i = posSupplies hp [jv] i ++ posSupplies hp t i := by
  cases hp with
  | false => simp [posSupplies]
  | true =>
    simpa [posSupplies] using
      filterMap_one_append (fun jv => if jv.1 = i then jv.2.position else none) jv t

theorem normSupplies_cons (hn : Bool) (jv : Nat × VertexElem)
    (t : List (Nat × VertexElem)) (i : Nat) :
    normSupplies hn (jv :: t) i = normSupplies hn [jv] i ++ normSupplies hn t i := by
  cases hn with
  | false => simp [normSupplies]
  | true =>
    simpa [normSupplies] using
      filterMap_one_append (fun jv => if jv.1 = i then jv.2.normal else none) jv t

theorem uvSupplies_cons (ht : Bool) (jv : Nat × VertexElem)
    (t : List (Nat × VertexElem)) (i : Nat) :
    uvSupplies ht (jv :: t) i = uvSupplies ht [jv] i ++ uvSupplies ht t i := by
  cases ht with
  | false => simp [uvSupplies]
  | true =>
    simpa [uvSupplies] using
      filterMap_one_append
        (fun jv => if jv.1 = i then jv.2.texcoord.map (fun p => texcoordConvert p.1 p.2)
                   else none) jv t

theorem foldl_mergeVertex_verts (hp hn ht : Bool) (l : List (Nat × VertexElem))
    (acc : GeomAcc) (i : Nat) :
    ((l.foldl (mergeVertex hp hn ht) acc).verts) i =
      lastOr (posSupplies hp l i) (acc.verts i) := by
  induction l generalizing acc with
  | nil => simp [posSupplies_nil, lastOr]
  | cons jv t ih =>
    rw [List.foldl_cons, ih, posSupplies_cons, lastOr_append, mergeVertex_verts]

theorem foldl_mergeVertex_normals (hp hn ht : Bool) (l : List (Nat × VertexElem))
    (acc : GeomAcc) (i : Nat) :
    ((l.foldl (mergeVertex hp hn ht) acc).normals) i =
      lastOr (normSupplies hn l i) (acc.normals i) := by
  induction l generalizing acc with
  | nil => simp [normSupplies_nil, lastOr]
  | cons jv t ih =>
    rw [List.foldl_cons, ih, normSupplies_cons, lastOr_append, mergeVertex_normals]

theorem foldl_mergeVertex_uvs (hp hn ht : Bool) (l : List (Nat × VertexElem))
    (acc : GeomAcc) (i : Nat) :
    ((l.foldl (mergeVertex hp hn ht) acc).uvs) i =
      lastOr (uvSupplies ht l i) (acc.uvs i) := by
  induction l generalizing acc with
  | nil => simp [uvSupplies_nil, lastOr]
  | cons jv t ih =>
    rw [List.foldl_cons, ih, uvSupplies_cons, lastOr_append, mergeVertex_uvs]

theorem foldl_mergeVertex_anyNormals (hp hn ht : Bool) (l : List (Nat × VertexElem))
    (acc : GeomAcc) :
    (l.foldl (mergeVertex hp hn ht) acc).anyNormals =
      (acc.anyNormals || (hn && l.any (fun jv => jv.2.normal.isSome))) := by
  induction l generalizing acc with
  | nil => simp
  | cons jv t ih =>
    rw [List.foldl_cons, ih, mergeVertex_anyNormals]
    cases acc.anyNormals <;> cases hn <;> simp [Bool.or_assoc, Bool.and_or_distrib_left]

theorem foldl_mergeVertex_anyUvs (hp hn ht : Bool) (l : List (Nat × VertexElem))
    (acc : GeomAcc) :
    (l.foldl (mergeVertex hp hn ht) acc).anyUvs =
      (acc.anyUvs || (ht && l.any (fun jv => jv.2.texcoord.isSome))) := by
  induction l generalizing acc with
  | nil => simp
  | cons jv t ih =>
    rw [List.foldl_cons, ih, mergeVertex_anyUvs]
    cases acc.anyUvs <;> cases ht <;> simp [Bool.or_assoc, Bool.and_or_distrib_left]

/-- All position values supplied for slot `i` of a geometry block, across
its vertex buffers in declaration order. -/
def posSuppliesG (g : GeometryElem) (i : Nat) : List V3 :=
  g.vertexbuffers.flatMap
    (fun vb => posSupplies vb.positions (bufList (vertexCountOf g) vb) i)

/-- All normal values supplied for slot `i` of a geometry block. -/
def normSuppliesG (g : GeometryElem) (i : Nat) : List V3 :=
  g.vertexbuffers.flatMap
    (fun vb => normSupplies vb.normals (bufList (vertexCountOf g) vb) i)

/-- All (V-flipped) texture coordinates supplied for slot `i` of a
geometry block. -/
def uvSuppliesG (g : GeometryElem) (i : Nat) : List V2 :=
  g.vertexbuffers.flatMap
    (fun vb => uvSupplies (texFlag vb) (bufList (vertexCountOf g) vb) i)

/-- Whether some vertex of the block received a normal: a buffer declares
normals and one of its (count-truncated) vertices carries a `<normal>`
child. -/
def receivedNormals (g : GeometryElem) : Bool :=
  g.vertexbuffers.any
    (fun vb => vb.normals &&
      (vb.vertices.take (vertexCountOf g)).any (fun v => v.normal.isSome))

/-- Whether some vertex of the block received a texture coordinate. -/
def receivedUvs (g : GeometryElem) : Bool :=
  g.vertexbuffers.any
    (fun vb => texFlag vb &&
      (vb.vertices.take (vertexCountOf g)).any (fun v => v.texcoord.isSome))

theorem foldl_mergeBuffer_verts (n : Nat) (bufs : List VertexBufferElem)
    (acc : GeomAcc) (i : Nat) :
    ((bufs.foldl (mergeBuffer n) acc).verts) i =
      lastOr (bufs.flatMap (fun vb => posSupplies vb.positions (bufList n vb) i))
        (acc.verts i) := by
  induction bufs generalizing acc with
  | nil => simp [lastOr]
  | cons vb t ih =>
    rw [List.foldl_cons, ih, List.flatMap_cons, lastOr_append]
    rw [mergeBuffer, foldl_mergeVertex_verts]

theorem foldl_mergeBuffer_normals (n : Nat) (bufs : List VertexBufferElem)
    (acc : GeomAcc) (i : Nat) :
    ((bufs.foldl (mergeBuffer n) acc).normals) i =
      lastOr (bufs.flatMap (fun vb => normSupplies vb.normals (bufList n vb) i))
        (acc.normals i) := by
  induction bufs generalizing acc with
  | nil => simp [lastOr]
  | cons vb t ih =>
    rw [List.foldl_cons, ih, List.flatMap_cons, lastOr_append]
    rw [mergeBuffer, foldl_mergeVertex_normals]

theorem foldl_mergeBuffer_uvs (n : Nat) (bufs : List VertexBufferElem)
    (acc : GeomAcc) (i : Nat) :
    ((bufs.foldl (mergeBuffer n) acc).uvs) i =
      lastOr (bufs.flatMap (fun vb => uvSupplies (texFlag vb) (bufList n vb) i))
        (acc.uvs i) := by
  induction bufs generalizing acc with
  | nil => simp [lastOr]
  | cons vb t ih =>
    rw [List.foldl_cons, ih, List.flatMap_cons, lastOr_append]
    rw [mergeBuffer, foldl_mergeVertex_uvs]

theorem enumFrom_any {α : Type} (p : α → Bool) (l : List α) (k : Nat) :
    ((List.enumFrom k l).any fun jv => p jv.2) = l.any p := by
  induction l generalizing k with
  | nil => rfl
  | cons a t ih => simp [List.enumFrom, List.any_cons, ih]

theorem enum_any_normal (l : List VertexElem) :
    (l.enum.any fun jv => jv.2.normal.isSome) = l.any fun v => v.normal.isSome := by
  rw [List.enum]
  exact enumFrom_any (fun v => v.normal.isSome) l 0

theorem enum_any_texcoord (l : List VertexElem) :
    (l.enum.any fun jv => jv.2.texcoord.isSome) = l.any fun v => v.texcoord.isSome := by
  rw [List.enum]
  exact enumFrom_any (fun v => v.texcoord.isSome) l 0

theorem foldl_mergeBuffer_anyNormals (n : Nat) (bufs : List VertexBufferElem)
    (acc : GeomAcc) :
    (bufs.foldl (mergeBuffer n) acc).anyNormals =
      (acc.anyNormals ||
        bufs.any (fun vb => vb.normals &&
          (vb.vertices.take n).any (fun v => v.normal.isSome))) := by
  induction bufs generalizing acc with
  | nil => simp
  | cons vb t ih =>
    rw [List.foldl_cons, ih, mergeBuffer, foldl_mergeVertex_anyNormals]
    rw [List.any_cons, bufList, enum_any_normal]
    cases acc.anyNormals <;> simp [Bool.or_assoc]

theorem foldl_mergeBuffer_anyUvs (n : Nat) (bufs : List VertexBufferElem)
    (acc : GeomAcc) :
    (bufs.foldl (mergeBuffer n) acc).anyUvs =
      (acc.anyUvs ||
        bufs.any (fun vb => texFlag vb &&
          (vb.vertices.take n).any (fun v => v.texcoord.isSome))) := by
  induction bufs generalizing acc with
  | nil => simp
  | cons vb t ih =>
    rw [List.foldl_cons, ih, mergeBuffer, foldl_mergeVertex_anyUvs]
    rw [List.any_cons, bufList, enum_any_texcoord]
    cases acc.anyUvs <;> simp [Bool.or_assoc]

/-- The merged slot `i` holds the last position supplied for it. -/
theorem mergedAcc_verts (g : GeometryElem) (i : Nat) :
    (mergedAcc g).verts i = lastOr (posSuppliesG g i) none := by
  rw [mergedAcc, foldl_mergeBuffer_verts, posSuppliesG]; rfl

/-- The merged slot `i` holds the last normal supplied for it. -/
theorem mergedAcc_normals (g : GeometryElem) (i : Nat) :
    (mergedAcc g).normals i = lastOr (normSuppliesG g i) none := by
  rw [mergedAcc, foldl_mergeBuffer_normals, normSuppliesG]; rfl

/-- The merged slot `i` holds the last (V-flipped) texture coordinate
supplied for it. -/
theorem mergedAcc_uvs (g : GeometryElem) (i : Nat) :
    (mergedAcc g).uvs i = lastOr (uvSuppliesG g i) none := by
  rw [mergedAcc, foldl_mergeBuffer_uvs, uvSuppliesG]; rfl

/-- `any_normals` is set exactly when some vertex of the block received
a normal. -/
theorem mergedAcc_anyNormals (g : GeometryElem) :
    (mergedAcc g).anyNormals = receivedNormals g := by
  rw [mergedAcc, foldl_mergeBuffer_anyNormals, receivedNormals]; rfl

/-- `any_uvs` is set exactly when some vertex of the block received a
texture coordinate. -/
theorem mergedAcc_anyUvs (g : GeometryElem) :
    (mergedAcc g).anyUvs = receivedUvs g := by
  rw [mergedAcc, foldl_mergeBuffer_anyUvs, receivedUvs]; rfl

theorem lastOr_concat {α : Type} (l : List α) (a : α) (o : Option α) :
    lastOr (l ++ [a]) o = some a := by
  rw [lastOr_append]; rfl

theorem parseGeometry_verts_length (g : GeometryElem) :
    (parseGeometry g).verts.length = vertexCountOf g := by
  simp [parseGeometry]

theorem parseGeometry_normals_cases (g : GeometryElem) :
    (parseGeometry g).normals = [] ∨
      (parseGeometry g).normals.length = (parseGeometry g).verts.length := by
  by_cases h : (mergedAcc g).anyNormals <;> simp [parseGeometry, h]

theorem parseGeometry_uvs_cases (g : GeometryElem) :
    (parseGeometry g).uvs = [] ∨
      (parseGeometry g).uvs.length = (parseGeometry g).verts.length := by
  by_cases h : (mergedAcc g).anyUvs <;> simp [parseGeometry, h]

/-! ### Decomposition of the global arrays into per-block contributions -/

theorem foldl_parseSubmesh_vertices (l : List SubmeshElem) (st : MeshState) :
    (l.foldl parseSubmesh st).vertices =
      st.vertices ++
        (l.filterMap (fun sm => if sm.usesharedvertices then none else sm.geometry)).flatMap
          (fun g => (parseGeometry g).verts) := by
  induction l generalizing st with
  | nil => simp
  | cons sm t ih =>
    rw [List.foldl_cons, ih]
    rcases hs : sm.usesharedvertices <;> rcases hg : sm.geometry with _ | g <;>
      simp [parseSubmesh, extendState, hs, hg, List.filterMap_cons]

theorem foldl_parseSubmesh_normals (l : List SubmeshElem) (st : MeshState) :
    (l.foldl parseSubmesh st).normals =
      st.normals ++
        (l.filterMap (fun sm => if sm.usesharedvertices then none else sm.geometry)).flatMap
          (fun g => (parseGeometry g).normals) := by
  induction l generalizing st with
  | nil => simp
  | cons sm t ih =>
    rw [List.foldl_cons, ih]
    rcases hs : sm.usesharedvertices <;> rcases hg : sm.geometry with _ | g <;>
      simp [parseSubmesh, extendState, hs, hg, List.filterMap_cons]

theorem foldl_parseSubmesh_uvs (l : List SubmeshElem) (st : MeshState) :
    (l.foldl parseSubmesh st).uvs =
      st.uvs ++
        (l.filterMap (fun sm => if sm.usesharedvertices then none else sm.geometry)).flatMap
          (fun g => (parseGeometry g).uvs) := by
  induction l generalizing st with
  | nil => simp
  | cons sm t ih =>
    rw [List.foldl_cons, ih]
    rcases hs : sm.usesharedvertices <;> rcases hg : sm.geometry with _ | g <;>
      simp [parseSubmesh, extendState, hs, hg, List.filterMap_cons]

theorem parseMeshXml_vertices (m : MeshElem) :
    (parseMeshXml m).vertices =
      (meshBlocks m).flatMap (fun g => (parseGeometry g).verts) := by
  obtain ⟨sg, subs⟩ := m
  cases sg <;>
    simp [parseMeshXml, meshBlocks, foldl_parseSubmesh_vertices, initState, extendState]

theorem parseMeshXml_normals (m : MeshElem) :
    (parseMeshXml m).normals =
      (meshBlocks m).flatMap (fun g => (parseGeometry g).normals) := by
  obtain ⟨sg, subs⟩ := m
  cases sg <;>
    simp [parseMeshXml, meshBlocks, foldl_parseSubmesh_normals, initState, extendState]

theorem parseMeshXml_uvs (m : MeshElem) :
    (parseMeshXml m).uvs =
      (meshBlocks m).flatMap (fun g => (parseGeometry g).uvs) := by
  obtain ⟨sg, subs⟩ := m
  cases sg <;>
    simp [parseMeshXml, meshBlocks, foldl_parseSubmesh_uvs, initState, extendState]

end MeshToObj

namespace Claims

open MeshToObj

/-- Claim C3: after merging a geometry block, the position sequence has
length `vertex_count` with every unsupplied slot defaulted to `(0,0,0)`;
the normal sequence is empty when no vertex of the block received a
normal and otherwise matches the position sequence's length with unset
entries defaulted to `(0,1,0)`; and the uv sequence obeys the same
all-or-nothing rule with default `(0,0)`. -/
theorem C3_merger_default_filling (g : GeometryElem) :
    (parseGeometry g).verts.length = vertexCountOf g ∧
    (∀ i, i < vertexCountOf g → posSuppliesG g i = [] →
      (parseGeometry g).verts.get? i = some (0, 0, 0)) ∧
    (receivedNormals g = false → (parseGeometry g).normals = []) ∧
    (receivedNormals g = true →
      (parseGeometry g).normals.length = (parseGeometry g).verts.length ∧
      ∀ i, i < vertexCountOf g → normSuppliesG g i = [] →
        (parseGeometry g).normals.get? i = some (0, 1, 0)) ∧
    (receivedUvs g = false → (parseGeometry g).uvs = []) ∧
    (receivedUvs g = true →
      (parseGeometry g).uvs.length = (parseGeometry g).verts.length ∧
      ∀ i, i < vertexCountOf g → uvSuppliesG g i = [] →
        (parseGeometry g).uvs.get? i = some (0, 0)) := by
  refine ⟨parseGeometry_verts_length g, ?_, ?_, ?_, ?_, ?_⟩
  · intro i hi hsup
    have hv : (mergedAcc g).verts i = none := by
      rw [mergedAcc_verts, hsup]; rfl
    simp only [parseGeometry, List.get?_eq_getElem?, List.getElem?_map]
    rw [List.getElem?_range hi]
    simp [hv]
  · intro h
    simp [parseGeometry, mergedAcc_anyNormals, h]
  · intro h
    constructor
    · simp [parseGeometry, mergedAcc_anyNormals, h]
    · intro i hi hsup
      have hv : (mergedAcc g).normals i = none := by
        rw [mergedAcc_normals, hsup]; rfl
      simp only [parseGeometry, mergedAcc_anyNormals, h, if_true,
        List.get?_eq_getElem?, List.getElem?_map]
      rw [List.getElem?_range hi]
      simp [hv]
  · intro h
    simp [parseGeometry, mergedAcc_anyUvs, h]
  · intro h
    constructor
    · simp [parseGeometry, mergedAcc_anyUvs, h]
    · intro i hi hsup
      have hv : (mergedAcc g).uvs i = none := by
        rw [mergedAcc_uvs, hsup]; rfl
      simp only [parseGeometry, mergedAcc_anyUvs, h, if_true,
        List.get?_eq_getElem?, List.getElem?_map]
      rw [List.getElem?_range hi]
      simp [hv]

/-- A concrete two-vertex block: the first vertex supplies position,
normal and texcoord; the second supplies nothing. -/
def gC3 : GeometryElem :=
  { vertexcount := some 2
  , vertexbuffers :=
      [ { positions := true, normals := true, texture_coords := 1
        , vertices :=
            [ { position := some (1, 2, 3), normal := some (0, 0, 1),
                texcoord := some (5, 7) }
            , { position := none, normal := none, texcoord := none } ] } ] }

theorem C3_merger_default_filling_witness :
    (receivedNormals gC3 = true ∧ (1 : Nat) < vertexCountOf gC3 ∧
      normSuppliesG gC3 1 = []) ∧
    (parseGeometry gC3).normals.get? 1 = some (0, 1, 0) := by
  refine ⟨⟨by decide, by decide, by decide⟩, ?_⟩
  exact ((C3_merger_default_filling gC3).2.2.2.1 (by decide)).2 1 (by decide) (by decide)

/-- Claim C4: within one geometry block, when several fragments supply
the same attribute for the same vertex slot, the fragment appearing
later in declaration order wins — the merged slot holds the last
supplied value, for positions, normals and texture coordinates alike. -/
theorem C4_merger_last_fragment_wins (g : GeometryElem) (i : Nat) :
    (∀ l p, posSuppliesG g i = l ++ [p] → (mergedAcc g).verts i = some p) ∧
    (∀ l nv, normSuppliesG g i = l ++ [nv] → (mergedAcc g).normals i = some nv) ∧
    (∀ l uv, uvSuppliesG g i = l ++ [uv] → (mergedAcc g).uvs i = some uv) := by
  refine ⟨?_, ?_, ?_⟩
  · intro l p h
    rw [mergedAcc_verts, h, lastOr_concat]
  · intro l nv h
    rw [mergedAcc_normals, h, lastOr_concat]
  · intro l uv h
    rw [mergedAcc_uvs, h, lastOr_concat]

/-- Two one-vertex fragments both declaring positions, both supplying a
value for slot 0: the later one must win. -/
def gC4 : GeometryElem :=
  { vertexcount := some 1
  , vertexbuffers :=
      [ { positions := true, normals := false, texture_coords := 0
        , vertices := [{ position := some (1, 2, 3), normal := none, texcoord := none }] }
      , { positions := true, normals := false, texture_coords := 0
        , vertices := [{ position := some (4, 5, 6), normal := none, texcoord := none }] } ] }

theorem C4_merger_last_fragment_wins_witness :
    posSuppliesG gC4 0 = [(1, 2, 3)] ++ [((4 : ℚ), (5 : ℚ), (6 : ℚ))] ∧
    (mergedAcc gC4).verts 0 = some (4, 5, 6) := by
  refine ⟨by decide, ?_⟩
  exact (C4_merger_last_fragment_wins gC4 0).1 [(1, 2, 3)] (4, 5, 6) (by decide)

/-- Claim C5: the V component of every texture coordinate read by the
merger is stored as `1 − v`, and the flip is an involution. -/
theorem C5_uv_flip_involution :
    (∀ u v : ℚ, texcoordConvert u v = (u, 1 - v)) ∧
    (∀ u v : ℚ, (texcoordConvert u (texcoordConvert u v).2).2 = v) ∧
    (∀ (hp hn : Bool) (acc : GeomAcc) (jv : Nat × VertexElem) (u v : ℚ),
      jv.2.texcoord = some (u, v) →
      (mergeVertex hp hn true acc jv).uvs jv.1 = some (texcoordConvert u v)) := by
  refine ⟨fun u v => rfl, ?_, ?_⟩
  · intro u v
    simp [texcoordConvert]
  · intro hp hn acc jv u v h
    rw [mergeVertex_uvs]
    simp [uvSupplies, h, lastOr]

/-- Claim C1 as stated is refuted below (`C1_counterexample`): a
geometry block with zero vertices contributes no normals, yet does not
disturb the global length alignment, so normals are still emitted.  The
amended claim requires the normal-lacking block to contribute at least
one vertex.  This theorem proves the amended claim: the two mesh-wide
booleans are characterised exactly as specified, every emitted face
line uses the encoding selected by those two booleans alone, and if a
block contributing at least one vertex contributes no normals while
some block contributes normals, no face line of the whole mesh carries
a normal reference. -/
theorem C1_face_format_selection (m : MeshElem) :
    (haveNormals (parseMeshXml m) = true ↔
      ((parseMeshXml m).normals.length = (parseMeshXml m).vertices.length ∧
        0 < (parseMeshXml m).normals.length)) ∧
    (haveUvs (parseMeshXml m) = true ↔
      ((parseMeshXml m).uvs.length = (parseMeshXml m).vertices.length ∧
        0 < (parseMeshXml m).uvs.length)) ∧
    (∀ e ∈ objFaceLines (parseMeshXml m),
      e.1 = faceFormat (haveUvs (parseMeshXml m)) (haveNormals (parseMeshXml m))) ∧
    ((∃ b ∈ meshBlocks m,
        (parseGeometry b).verts ≠ [] ∧ (parseGeometry b).normals = []) →
      (∃ b ∈ meshBlocks m, (parseGeometry b).normals ≠ []) →
      (haveNormals (parseMeshXml m) = false ∧
        ∀ e ∈ objFaceLines (parseMeshXml m), carriesNormal e.1 = false)) := by
  refine ⟨?_, ?_, ?_, ?_⟩
  · simp [haveNormals]
  · simp [haveUvs]
  · intro e he
    simp only [objFaceLines, List.mem_flatMap, List.mem_map] at he
    obtain ⟨faces, _, f, _, rfl⟩ := he
    rfl
  · rintro ⟨b, hbmem, hbverts, hbnorm⟩ _
    have hlt : (parseMeshXml m).normals.length < (parseMeshXml m).vertices.length := by
      rw [parseMeshXml_normals, parseMeshXml_vertices, List.length_flatMap,
        List.length_flatMap]
      refine List.sum_lt_sum _ _ ?_ ⟨b, hbmem, ?_⟩
      · intro g _
        rcases parseGeometry_normals_cases g with h | h <;>
          simp [Function.comp, h]
      · simp only [Function.comp]
        rw [hbnorm]
        simpa [List.length_pos] using hbverts
    have hfalse : haveNormals (parseMeshXml m) = false := by
      simp [haveNormals, Nat.ne_of_lt hlt]
    refine ⟨hfalse, ?_⟩
    intro e he
    simp only [objFaceLines, List.mem_flatMap, List.mem_map] at he
    obtain ⟨faces, _, f, _, rfl⟩ := he
    rcases h : haveUvs (parseMeshXml m) <;>
      simp [faceFormat, hfalse, h, carriesNormal]

/-- A mesh with an empty shared block (zero vertices, hence no normal
contribution) and one local block that does contribute a normal: claim
C1's cross-block clause, read literally, demands that no face line
carry a normal reference — yet the emitted face line does. -/
def mC1 : MeshElem :=
  { sharedgeometry := some { vertexcount := some 0, vertexbuffers := [] }
  , submeshes :=
      [ { usesharedvertices := false
        , geometry := some
            { vertexcount := some 1
            , vertexbuffers :=
                [ { positions := true, normals := true, texture_coords := 0
                  , vertices :=
                      [ { position := some (0, 0, 0), normal := some (0, 1, 0),
                          texcoord := none } ] } ] }
        , faces := [⟨0, 0, 0⟩] } ] }

theorem C1_counterexample :
    (∃ b ∈ meshBlocks mC1, (parseGeometry b).normals = []) ∧
    (∃ b ∈ meshBlocks mC1, (parseGeometry b).normals ≠ []) ∧
    ∃ e ∈ objFaceLines (parseMeshXml mC1), carriesNormal e.1 = true := by
  decide

/-- A mesh where the normal-lacking block is non-empty: one shared
vertex without a normal, one local vertex with a normal. -/
def mC1w : MeshElem :=
  { sharedgeometry := some
      { vertexcount := some 1
      , vertexbuffers :=
          [ { positions := true, normals := false, texture_coords := 0
            , vertices :=
                [ { position := some (0, 0, 0), normal := none, texcoord := none } ] } ] }
  , submeshes :=
      [ { usesharedvertices := false
        , geometry := some
            { vertexcount := some 1
            , vertexbuffers :=
                [ { positions := true, normals := true, texture_coords := 0
                  , vertices :=
                      [ { position := some (0, 0, 0), normal := some (0, 1, 0),
                          texcoord := none } ] } ] }
        , faces := [⟨0, 0, 0⟩] } ] }

theorem C1_face_format_selection_witness :
    haveNormals (parseMeshXml mC1w) = false :=
  ((C1_face_format_selection mC1w).2.2.2
    (by decide) (by decide)).1

/-- Claim C2: a submesh that does not use shared vertices gets a
vertex-index offset equal to the global vertex count before its local
block is appended, a shared submesh gets offset `0`, every face index
becomes `source + offset + 1`, and for a shared block of `N` vertices
followed by two local submeshes of `M1` and `M2` vertices the two
submeshes resolve with offsets `N` and `N + M1`. -/
theorem C2_submesh_offsets (st : MeshState) (sm : SubmeshElem) :
    (∀ g, sm.usesharedvertices = false → sm.geometry = some g →
      parseSubmesh st sm =
        { vertices := st.vertices ++ (parseGeometry g).verts
        , normals := st.normals ++ (parseGeometry g).normals
        , uvs := st.uvs ++ (parseGeometry g).uvs
        , submeshes := st.submeshes ++
            [sm.faces.map (fun f =>
              (f.v1 + (st.vertices.length : ℤ) + 1,
               f.v2 + (st.vertices.length : ℤ) + 1,
               f.v3 + (st.vertices.length : ℤ) + 1))] }) ∧
    (sm.usesharedvertices = true →
      parseSubmesh st sm =
        { st with submeshes := st.submeshes ++
            [sm.faces.map (fun f => (f.v1 + 0 + 1, f.v2 + 0 + 1, f.v3 + 0 + 1))] }) ∧
    (∀ (g0 g1 g2 : GeometryElem) (sm1 sm2 : SubmeshElem),
      sm1.usesharedvertices = false → sm1.geometry = some g1 →
      sm2.usesharedvertices = false → sm2.geometry = some g2 →
      (parseMeshXml ⟨some g0, [sm1, sm2]⟩).submeshes =
        [ sm1.faces.map (fun f =>
            (f.v1 + ((parseGeometry g0).verts.length : ℤ) + 1,
             f.v2 + ((parseGeometry g0).verts.length : ℤ) + 1,
             f.v3 + ((parseGeometry g0).verts.length : ℤ) + 1))
        , sm2.faces.map (fun f =>
            (f.v1 + (((parseGeometry g0).verts.length : ℤ) +
                ((parseGeometry g1).verts.length : ℤ)) + 1,
             f.v2 + (((parseGeometry g0).verts.length : ℤ) +
                ((parseGeometry g1).verts.length : ℤ)) + 1,
             f.v3 + (((parseGeometry g0).verts.length : ℤ) +
                ((parseGeometry g1).verts.length : ℤ)) + 1)) ]) := by
  refine ⟨?_, ?_, ?_⟩
  · intro g hsh hg
    simp [parseSubmesh, extendState, hsh, hg]
  · intro hsh
    simp [parseSubmesh, hsh]
  · intro g0 g1 g2 sm1 sm2 h1s h1g h2s h2g
    simp only [parseMeshXml, List.foldl_cons, List.foldl_nil]
    rw [parseSubmesh, parseSubmesh]
    simp [h1s, h1g, h2s, h2g, parseSubmesh, extendState, initState,
      add_assoc, add_comm, add_left_comm]

/-- One shared vertex, one local submesh with two vertices and a face,
then a second local submesh with one vertex and a face. -/
def mC2w : SubmeshElem :=
  { usesharedvertices := false
  , geometry := some
      { vertexcount := some 2
      , vertexbuffers :=
          [ { positions := true, normals := false, texture_coords := 0
            , vertices :=
                [ { position := some (1, 0, 0), normal := none, texcoord := none }
                , { position := some (0, 1, 0), normal := none, texcoord := none } ] } ] }
  , faces := [⟨0, 1, 1⟩] }

theorem C2_submesh_offsets_witness :
    parseSubmesh { vertices := [(5, 5, 5)], normals := [], uvs := [], submeshes := [] }
        mC2w =
      { vertices := [(5, 5, 5)] ++ (parseGeometry
          { vertexcount := some 2
          , vertexbuffers :=
              [ { positions := true, normals := false, texture_coords := 0
                , vertices :=
                    [ { position := some (1, 0, 0), normal := none, texcoord := none }
                    , { position := some (0, 1, 0), normal := none, texcoord := none } ] } ] }).verts
      , normals := []
      , uvs := []
      , submeshes := [[((2 : ℤ), (3 : ℤ), (3 : ℤ))]] } := by
  have h := (C2_submesh_offsets
    { vertices := [(5, 5, 5)], normals := [], uvs := [], submeshes := [] } mC2w).1
    _ rfl rfl
  rw [h]
  decide

theorem C5_uv_flip_involution_witness :
    (mergeVertex false false true initAcc
        (0, { position := none, normal := none, texcoord := some (3, 7) })).uvs 0 =
      some (texcoordConvert 3 7) :=
  C5_uv_flip_involution.2.2 false false initAcc
    (0, { position := none, normal := none, texcoord := some (3, 7) }) 3 7 rfl

end Claims

namespace Recalc

/-- The `Vector3` class of `recalculate_normals.py`, over the reals. -/
structure Vector3 where
  x : ℝ
  y : ℝ
  z : ℝ

/-- `__add__`. -/
noncomputable def Vector3.add (a b : Vector3) : Vector3 :=
  ⟨a.x + b.x, a.y + b.y, a.z + b.z⟩

/-- `__sub__`. -/
noncomputable def Vector3.sub (a b : Vector3) : Vector3 :=
  ⟨a.x - b.x, a.y - b.y, a.z - b.z⟩

/-- `__mul__` by a scalar. -/
noncomputable def Vector3.smul (a : Vector3) (s : ℝ) : Vector3 :=
  ⟨a.x * s, a.y * s, a.z * s⟩

/-- `cross`. -/
noncomputable def Vector3.cross (a b : Vector3) : Vector3 :=
  ⟨a.y * b.z - a.z * b.y, a.z * b.x - a.x * b.z, a.x * b.y - a.y * b.x⟩

/-- `length`. -/
noncomputable def Vector3.length (a : Vector3) : ℝ :=
  Real.sqrt (a.x * a.x + a.y * a.y + a.z * a.z)

open Classical in
/-- `normalize`: divide by the length when it exceeds the fixed
threshold `0.000001 = 1e-6`, else return the fallback `(0,0,1)`. -/
noncomputable def Vector3.normalize (a : Vector3) : Vector3 :=
  if a.length > 1e-6 then ⟨a.x / a.length, a.y / a.length, a.z / a.length⟩
  else ⟨0, 0, 1⟩

/-- `calculate_face_normal`. -/
noncomputable def calculate_face_normal (v1 v2 v3 : Vector3) : Vector3 :=
  let edge1 := v2.sub v1
  let edge2 := v3.sub v1
  (edge1.cross edge2).normalize

/-- A `<vertex>` element as seen by the recalculation pass: an optional
`<position>` child, an optional `<normal>` child, and a stand-in for
all its other child elements, which the pass never touches. -/
structure RVertex where
  position : Option Vector3
  normal : Option Vector3
  extra : List String

/-- A `<vertexbuffer>` element: its `normals` attribute (compared
against the string `"true"`), its other attributes, and its `<vertex>`
children. -/
structure RVertexBuffer where
  normalsAttr : Option String
  attrs : List (String × String)
  vertices : List RVertex

/-- A geometry element (shared geometry, shared vertex data, or a
submesh-local `<geometry>`). -/
structure RGeometry where
  attrs : List (String × String)
  vertexbuffers : List RVertexBuffer

/-- A `<face>` element: three indices read with `int(...)`. -/
structure RFace where
  v1 : ℤ
  v2 : ℤ
  v3 : ℤ

/-- A `<submesh>` element: the shared-vertices flag, the optional local
geometry, and the optional `<faces>` child (its absence makes the pass
skip the submesh, so it is kept distinct from an empty list). -/
structure RSubmesh where
  usesharedvertices : Bool
  geometry : Option RGeometry
  faces : Option (List RFace)

/-- The mesh document: optional `<sharedgeometry>`, the fallback
`<sharedvertexdata>` element, and the submeshes in document order. -/
structure RMesh where
  sharedgeometry : Option RGeometry
  sharedvertexdata : Option RGeometry
  submeshes : List RSubmesh

/-- Python list indexing: a non-negative index must be below the
length; a negative index `i` addresses slot `len + i` when that is
non-negative; anything else raises `IndexError` (modelled as `none`). -/
def pyIdx (len : Nat) (i : ℤ) : Option Nat :=
  if 0 ≤ i then (if i < (len : ℤ) then some i.toNat else none)
  else (if 0 ≤ (len : ℤ) + i then some ((len : ℤ) + i).toNat else none)

/-- The ordered position sequence read from a vertex buffer: one entry
per `<vertex>` child, `(0,0,0)` when the `<position>` child is absent. -/
noncomputable def positionsOf (vb : RVertexBuffer) : List Vector3 :=
  vb.vertices.map (fun v => v.position.getD ⟨0, 0, 0⟩)

/-- The accumulation state of the per-submesh loop: `vertex_normals`,
`vertex_face_count` and `face_count` (the two arrays as maps from
vertex index, faithful since they have fixed length `vertex_count`). -/
structure NormAcc where
  vn : Nat → Vector3
  vfc : Nat → Nat
  faceCount : Nat

/-- The zero-initialised accumulation state. -/
noncomputable def initNormAcc : NormAcc :=
  { vn := fun _ => ⟨0, 0, 0⟩, vfc := fun _ => 0, faceCount := 0 }

/-- One iteration of the face loop.  The validity check compares each
index only against the upper bound `vertex_count` (no lower bound): a
face failing it is skipped with a warning.  A face passing it is
processed, with Python semantics for negative indices — an index in
`[-n, -1]` wraps around, and one below `-n` raises an uncaught
`IndexError` that aborts the whole pass (`none`). -/
noncomputable def accumFace (positions : List Vector3) (acc : NormAcc) (f : RFace) :
    Option NormAcc :=
  let n := positions.length
  if f.v1 < (n : ℤ) ∧ f.v2 < (n : ℤ) ∧ f.v3 < (n : ℤ) then
    match pyIdx n f.v1, pyIdx n f.v2, pyIdx n f.v3 with
    | some i1, some i2, some i3 =>
      let fn := calculate_face_normal (positions.getD i1 ⟨0, 0, 0⟩)
        (positions.getD i2 ⟨0, 0, 0⟩) (positions.getD i3 ⟨0, 0, 0⟩)
      let vn1 := fun j => if j = i1 then (acc.vn j).add fn else acc.vn j
      let vn2 := fun j => if j = i2 then (vn1 j).add fn else vn1 j
      let vn3 := fun j => if j = i3 then (vn2 j).add fn else vn2 j
      let fc1 := fun j => if j = i1 then acc.vfc j + 1 else acc.vfc j
      let fc2 := fun j => if j = i2 then fc1 j + 1 else fc1 j
      let fc3 := fun j => if j = i3 then fc2 j + 1 else fc2 j
      some { vn := vn3, vfc := fc3, faceCount := acc.faceCount + 1 }
    | _, _, _ => none
  else some acc

/-- The face loop threaded over an optional state (`none` once an
uncaught `IndexError` has been raised). -/
noncomputable def accumFold (positions : List Vector3) (acc? : Option NormAcc)
    (faces : List RFace) : Option NormAcc :=
  faces.foldl (fun a? f => a?.bind (fun a => accumFace positions a f)) acc?

open Classical in
/-- The update loop body for one vertex: a vertex touched by at least
one face gets `normalize(accumulator * (1 / face_count))` written into
its normal field (created when absent) and counts as updated; a vertex
touched by no face gets the default `(0,1,0)` only when a normal field
already exists, and never counts as updated. -/
noncomputable def updateVertex (acc : NormAcc) (i : Nat) (v : RVertex) : RVertex × Nat :=
  if 0 < acc.vfc i then
    ({ v with normal := some (((acc.vn i).smul (1 / (acc.vfc i : ℝ))).normalize) }, 1)
  else
    match v.normal with
    | some _ => ({ v with normal := some ⟨0, 1, 0⟩ }, 0)
    | none => (v, 0)

/-- One submesh's processing, given its resolved geometry and faces:
`some none` is a skip (`continue` with a warning), `none` an uncaught
error aborting the pass, and `some (some (g', c))` success with the
updated geometry and the updated-normals count.  Only the first
vertex buffer is consulted and rewritten. -/
noncomputable def processGeom (resolved : Option RGeometry)
    (faces? : Option (List RFace)) : Option (Option (RGeometry × Nat)) :=
  match resolved with
  | none => some none
  | some g =>
    match g.vertexbuffers with
    | [] => some none
    | vb :: rest =>
      if vb.normalsAttr = some "true" then
        let positions := positionsOf vb
        if positions.length = 0 then some none
        else
          match faces? with
          | none => some none
          | some faces =>
            match accumFold positions (some initNormAcc) faces with
            | none => none
            | some acc =>
              let pairs := vb.vertices.enum.map (fun iv => updateVertex acc iv.1 iv.2)
              some (some
                ({ g with vertexbuffers :=
                    { vb with vertices := pairs.map Prod.fst } :: rest },
                  (pairs.map Prod.snd).sum))
      else some none

/-- `geometry = root.find('.//sharedgeometry')`, falling back to
`root.find('.//mesh/sharedvertexdata')`. -/
def optOr (a b : Option RGeometry) : Option RGeometry :=
  match a with
  | some g => some g
  | none => b

/-- Geometry resolution for one submesh: the shared element when the
flag is set, else the submesh's own geometry child. -/
def resolveGeometry (sg svd : Option RGeometry) (sm : RSubmesh) : Option RGeometry :=
  if sm.usesharedvertices then optOr sg svd else sm.geometry

/-- The in-progress state of the whole pass: the (possibly rewritten)
shared elements, the submeshes already processed, and
`total_vertices_processed`. -/
structure PassState where
  sg : Option RGeometry
  svd : Option RGeometry
  done : List RSubmesh
  total : Nat

/-- One submesh iteration of the pass, rewriting the element the
resolution actually aliased (shared geometry, shared vertex data, or
the submesh's local geometry). -/
noncomputable def passStep (st : PassState) (sm : RSubmesh) : Option PassState :=
  match processGeom (resolveGeometry st.sg st.svd sm) sm.faces with
  | none => none
  | some none => some { st with done := st.done ++ [sm] }
  | some (some (g', c)) =>
    if sm.usesharedvertices then
      match st.sg with
      | some _ =>
        some { st with sg := some g', done := st.done ++ [sm], total := st.total + c }
      | none =>
        some { st with svd := some g', done := st.done ++ [sm], total := st.total + c }
    else
      some { st with done := st.done ++ [{ sm with geometry := some g' }],
                     total := st.total + c }

/-- The whole recalculation pass over a mesh document: `none` when an
uncaught error aborts it (the tree is then never written), otherwise
the rewritten document and the total updated count. -/
noncomputable def runPass (m : RMesh) : Option (RMesh × Nat) :=
  (m.submeshes.foldl (fun st? sm => st?.bind (fun st => passStep st sm))
      (some { sg := m.sharedgeometry, svd := m.sharedvertexdata,
              done := [], total := 0 })).map
    (fun st => ({ sharedgeometry := st.sg, sharedvertexdata := st.svd,
                  submeshes := st.done }, st.total))

end Recalc

namespace Claims2

open Recalc

/-- Claim C7 as stated is refuted below (`C7_counterexample`): the
validity check of the face loop compares each index only against the
upper bound, so a face with the negative index `-1` — outside the
range `[0, vertex_count)` — is *processed* (via Python wraparound
indexing), not skipped.  This theorem proves the amended claim: every
face with some index at or above `vertex_count` is skipped with a
warning — it leaves the accumulators and the face total unchanged —
and the loop continues with the remaining faces. -/
theorem C7_out_of_range_faces_skipped (positions : List Vector3) (acc : NormAcc)
    (f : RFace)
    (h : ¬(f.v1 < (positions.length : ℤ) ∧ f.v2 < (positions.length : ℤ) ∧
        f.v3 < (positions.length : ℤ))) :
    accumFace positions acc f = some acc ∧
    ∀ rest : List RFace,
      accumFold positions (some acc) (f :: rest) = accumFold positions (some acc) rest := by
  have hskip : accumFace positions acc f = some acc := by
    simp only [accumFace]
    rw [if_neg h]
  refine ⟨hskip, ?_⟩
  intro rest
  simp [accumFold, hskip]

/-- A face with index `-1` into a one-vertex buffer: not all of its
indices lie in `[0, vertex_count)`, yet it is processed — the face
total becomes `1` and vertex 0 (reached by wraparound) accumulates
three face-count increments. -/
theorem C7_counterexample :
    (¬(0 ≤ (-1 : ℤ) ∧ (-1 : ℤ) < (1 : ℤ))) ∧
    Option.map NormAcc.faceCount
        (accumFace [⟨0, 0, 0⟩] initNormAcc ⟨-1, 0, 0⟩) = some 1 ∧
    Option.map (fun a => a.vfc 0)
        (accumFace [⟨0, 0, 0⟩] initNormAcc ⟨-1, 0, 0⟩) = some 3 := by
  refine ⟨by decide, ?_, ?_⟩ <;> rfl

theorem C7_out_of_range_faces_skipped_witness :
    accumFace [⟨0, 0, 0⟩] initNormAcc ⟨5, 0, 0⟩ = some initNormAcc :=
  (C7_out_of_range_faces_skipped [⟨0, 0, 0⟩] initNormAcc ⟨5, 0, 0⟩
    (by norm_num)).1

/-- Claim C8 as stated is refuted below (`C8_counterexample`): a vertex
touched by zero faces receives the default `(0,1,0)` only when it
already has a normal field; when it has none, nothing is written.  This
theorem proves the amended claim: a vertex with positive face count
receives `normalize(accumulator * (1 / face_count))` and counts as
updated; a vertex with zero face count never counts as updated, and it
receives the default `(0,1,0)` exactly when a normal field already
exists, being left untouched otherwise; the updated count of the loop
equals the number of vertices with positive face count. -/
theorem C8_final_normals (acc : NormAcc) :
    (∀ (i : Nat) (v : RVertex), 0 < acc.vfc i →
      updateVertex acc i v =
        ({ v with
            normal := some (((acc.vn i).smul (1 / (acc.vfc i : ℝ))).normalize) },
          1)) ∧
    (∀ (i : Nat) (v : RVertex), acc.vfc i = 0 →
      (updateVertex acc i v).2 = 0 ∧
      (∀ w, v.normal = some w →
        (updateVertex acc i v).1 = { v with normal := some ⟨0, 1, 0⟩ }) ∧
      (v.normal = none → (updateVertex acc i v).1 = v)) ∧
    (∀ vertices : List RVertex,
      ((vertices.enum.map (fun iv => updateVertex acc iv.1 iv.2)).map Prod.snd).sum =
        (vertices.enum.filter (fun iv => decide (0 < acc.vfc iv.1))).length) := by
  refine ⟨?_, ?_, ?_⟩
  · intro i v h
    simp [updateVertex, h]
  · intro i v h
    have h' : ¬ 0 < acc.vfc i := by omega
    refine ⟨?_, ?_, ?_⟩
    · rcases hv : v.normal with _ | w <;> simp [updateVertex, h', hv]
    · intro w hv; simp [updateVertex, h', hv]
    · intro hv; simp [updateVertex, h', hv]
  · intro vertices
    have key : ∀ l : List (Nat × RVertex),
        ((l.map (fun iv => updateVertex acc iv.1 iv.2)).map Prod.snd).sum =
          (l.filter (fun iv => decide (0 < acc.vfc iv.1))).length := by
      intro l
      induction l with
      | nil => simp
      | cons iv t ih =>
        have hstep : (updateVertex acc iv.1 iv.2).2 =
            if 0 < acc.vfc iv.1 then 1 else 0 := by
          by_cases h : 0 < acc.vfc iv.1
          · simp [updateVertex, h]
          · rcases hv : iv.2.normal with _ | w <;> simp [updateVertex, h, hv]
        by_cases h : 0 < acc.vfc iv.1 <;>
          simp [List.filter_cons, h, hstep, List.map_map] at ih ⊢ <;>
            simp [ih, Nat.add_comm]
    exact key vertices.enum

/-- A block whose first vertex buffer declares normals, with vertex 0
carrying a normal and touched by one degenerate face, and vertex 1
carrying no normal field and touched by no face: after the pass,
vertex 1 still has no normal field — it did not receive `(0,1,0)`. -/
noncomputable def gC8 : RGeometry :=
  { attrs := []
  , vertexbuffers :=
      [ { normalsAttr := some "true", attrs := []
        , vertices :=
            [ { position := some ⟨0, 0, 0⟩, normal := some ⟨1, 0, 0⟩, extra := [] }
            , { position := some ⟨2, 0, 0⟩, normal := none, extra := [] } ] } ] }

theorem C8_counterexample :
    processGeom (some gC8) (some [⟨0, 0, 0⟩]) =
      some (some
        ({ attrs := []
         , vertexbuffers :=
            [ { normalsAttr := some "true", attrs := []
              , vertices :=
                  [ { position := some ⟨0, 0, 0⟩, normal := some ⟨0, 0, 1⟩, extra := [] }
                  , { position := some ⟨2, 0, 0⟩, normal := none, extra := [] } ] } ] },
         1)) := by
  have h0 : Vector3.normalize ⟨0, 0, 0⟩ = ⟨0, 0, 1⟩ := by
    unfold Vector3.normalize Vector3.length
    rw [if_neg]
    norm_num
  have h1 : Vector3.normalize ⟨0, 0, 1⟩ = ⟨0, 0, 1⟩ := by
    have hs : Real.sqrt ((0 : ℝ) * 0 + 0 * 0 + 1 * 1) = 1 := by
      norm_num
    unfold Vector3.normalize Vector3.length
    rw [hs, if_pos (by norm_num)]
    norm_num
  norm_num [processGeom, gC8, positionsOf, accumFold, accumFace, pyIdx,
    initNormAcc, updateVertex, calculate_face_normal, Vector3.sub, Vector3.cross,
    Vector3.smul, Vector3.add, h0, h1, List.enum, List.enumFrom]

theorem C8_final_normals_witness :
    (updateVertex initNormAcc 0
        { position := none, normal := none, extra := [] }).1 =
      { position := none, normal := none, extra := [] } :=
  ((C8_final_normals initNormAcc).2.1 0
    { position := none, normal := none, extra := [] } rfl).2.2 rfl

/-- Claim C10: each submesh's processing operates exclusively on the
first vertex buffer of its resolved geometry block.  The skip decision
inspects only that buffer's normals flag, and the whole result is
already determined by that buffer and the faces: processing a block
with further buffers equals processing the block truncated to its
first buffer, with the extra buffers passed through untouched. -/
theorem C10_first_vertexbuffer_only (vb : RVertexBuffer)
    (rest : List RVertexBuffer) (attrs : List (String × String))
    (faces? : Option (List RFace)) :
    (vb.normalsAttr ≠ some "true" →
      processGeom (some { attrs := attrs, vertexbuffers := vb :: rest }) faces? =
        some none) ∧
    processGeom (some { attrs := attrs, vertexbuffers := vb :: rest }) faces? =
      (processGeom (some { attrs := attrs, vertexbuffers := [vb] }) faces?).map
        (Option.map (fun r =>
          ({ attrs := r.1.attrs, vertexbuffers := r.1.vertexbuffers ++ rest }, r.2))) := by
  constructor
  · intro hn
    simp [processGeom, hn]
  · by_cases hn : vb.normalsAttr = some "true"
    · by_cases hp : (positionsOf vb).length = 0
      · simp [processGeom, hn, hp]
      · rcases faces? with _ | faces
        · simp [processGeom, hn, hp]
        · rcases hacc : accumFold (positionsOf vb) (some initNormAcc) faces with _ | acc <;>
            simp [processGeom, hn, hp, hacc]
    · simp [processGeom, hn]

/-- A buffer not declaring normals makes the submesh get skipped, no
matter what follows it. -/
theorem C10_first_vertexbuffer_only_witness :
    processGeom
        (some { attrs := []
              , vertexbuffers :=
                  [ { normalsAttr := none, attrs := [], vertices := [] }
                  , { normalsAttr := some "true", attrs := [], vertices := [] } ] })
        (some []) = some none :=
  (C10_first_vertexbuffer_only
    { normalsAttr := none, attrs := [], vertices := [] }
    [{ normalsAttr := some "true", attrs := [], vertices := [] }] [] (some [])).1
    (by simp)

/-! ### Frame relations for the write-back pass -/

/-- Two vertex elements equal except possibly in the normal field. -/
def vertexFrame (v v' : RVertex) : Prop :=
  v'.position = v.position ∧ v'.extra = v.extra

/-- Two vertex buffers equal except possibly in their vertices' normal
fields. -/
def vbFrame (vb vb' : RVertexBuffer) : Prop :=
  vb'.normalsAttr = vb.normalsAttr ∧ vb'.attrs = vb.attrs ∧
    List.Forall₂ vertexFrame vb.vertices vb'.vertices

/-- Two geometry elements equal except possibly in normal fields. -/
def geomFrame (g g' : RGeometry) : Prop :=
  g'.attrs = g.attrs ∧ List.Forall₂ vbFrame g.vertexbuffers g'.vertexbuffers

/-- `geomFrame` lifted to optional elements (present-ness preserved). -/
def optGeomFrame : Option RGeometry → Option RGeometry → Prop
  | none, none => True
  | some g, some g' => geomFrame g g'
  | _, _ => False

/-- Two submeshes equal except possibly in normal fields of their local
geometry. -/
def submeshFrame (sm sm' : RSubmesh) : Prop :=
  sm'.usesharedvertices = sm.usesharedvertices ∧ sm'.faces = sm.faces ∧
    optGeomFrame sm.geometry sm'.geometry

/-- Two mesh documents equal except possibly in normal fields. -/
def meshFrame (m m' : RMesh) : Prop :=
  optGeomFrame m.sharedgeometry m'.sharedgeometry ∧
  optGeomFrame m.sharedvertexdata m'.sharedvertexdata ∧
  List.Forall₂ submeshFrame m.submeshes m'.submeshes

theorem vertexFrame_refl (v : RVertex) : vertexFrame v v := ⟨rfl, rfl⟩

theorem vbFrame_refl (vb : RVertexBuffer) : vbFrame vb vb :=
  ⟨rfl, rfl, List.forall₂_same.2 fun v _ => vertexFrame_refl v⟩

theorem geomFrame_refl (g : RGeometry) : geomFrame g g :=
  ⟨rfl, List.forall₂_same.2 fun vb _ => vbFrame_refl vb⟩

theorem optGeomFrame_refl (o : Option RGeometry) : optGeomFrame o o := by
  cases o with
  | none => trivial
  | some g => exact geomFrame_refl g

theorem submeshFrame_refl (sm : RSubmesh) : submeshFrame sm sm :=
  ⟨rfl, rfl, optGeomFrame_refl sm.geometry⟩

theorem forall₂_trans {α : Type} {r : α → α → Prop}
    (ht : ∀ a b c, r a b → r b c → r a c) :
    ∀ {l₁ l₂ l₃ : List α}, List.Forall₂ r l₁ l₂ → List.Forall₂ r l₂ l₃ →
      List.Forall₂ r l₁ l₃ := by
  intro l₁ l₂ l₃ h₁ h₂
  induction h₁ generalizing l₃ with
  | nil => cases h₂; exact .nil
  | cons h t ih =>
    cases h₂ with
    | cons h' t' => exact .cons (ht _ _ _ h h') (ih t')

theorem vertexFrame_trans (a b c : RVertex) (h₁ : vertexFrame a b)
    (h₂ : vertexFrame b c) : vertexFrame a c :=
  ⟨h₂.1.trans h₁.1, h₂.2.trans h₁.2⟩

theorem vbFrame_trans (a b c : RVertexBuffer) (h₁ : vbFrame a b)
    (h₂ : vbFrame b c) : vbFrame a c :=
  ⟨h₂.1.trans h₁.1, h₂.2.1.trans h₁.2.1,
    forall₂_trans vertexFrame_trans h₁.2.2 h₂.2.2⟩

theorem geomFrame_trans (a b c : RGeometry) (h₁ : geomFrame a b)
    (h₂ : geomFrame b c) : geomFrame a c :=
  ⟨h₂.1.trans h₁.1, forall₂_trans vbFrame_trans h₁.2 h₂.2⟩

theorem optGeomFrame_trans (a b c : Option RGeometry) (h₁ : optGeomFrame a b)
    (h₂ : optGeomFrame b c) : optGeomFrame a c := by
  cases a <;> cases b <;> cases c <;> simp_all [optGeomFrame]
  exact geomFrame_trans _ _ _ h₁ h₂

theorem updateVertex_frame (acc : NormAcc) (i : Nat) (v : RVertex) :
    vertexFrame v (updateVertex acc i v).1 := by
  by_cases h : 0 < acc.vfc i
  · simp [updateVertex, h, vertexFrame]
  · rcases hv : v.normal with _ | w <;> simp [updateVertex, h, hv, vertexFrame]

theorem enumFrom_update_frame (acc : NormAcc) (l : List RVertex) :
    ∀ k : Nat, List.Forall₂ vertexFrame l
      ((List.enumFrom k l).map (fun iv => (updateVertex acc iv.1 iv.2).1)) := by
  induction l with
  | nil => intro k; exact .nil
  | cons v t ih =>
    intro k
    exact .cons (updateVertex_frame acc k v) (ih (k + 1))

theorem processGeom_frame (g g' : RGeometry) (c : Nat)
    (faces? : Option (List RFace))
    (h : processGeom (some g) faces? = some (some (g', c))) : geomFrame g g' := by
  obtain ⟨gattrs, gvbs⟩ := g
  rcases gvbs with _ | ⟨vb, rest⟩
  · simp [processGeom] at h
  · by_cases hn : vb.normalsAttr = some "true"
    · by_cases hp : (positionsOf vb).length = 0
      · simp [processGeom, hn, hp] at h
      · rcases faces? with _ | faces
        · simp [processGeom, hn, hp] at h
        · rcases hacc : accumFold (positionsOf vb) (some initNormAcc) faces with _ | acc
          · simp [processGeom, hn, hp, hacc] at h
          · simp only [processGeom, hn, if_true, hp, if_false, hacc,
              Option.some.injEq, Prod.mk.injEq, reduceIte] at h
            obtain ⟨hg', _⟩ := h
            rw [← hg']
            refine ⟨rfl, ?_⟩
            refine List.Forall₂.cons ⟨?_, rfl, ?_⟩
              (List.forall₂_same.2 fun x _ => vbFrame_refl x)
            · rw [hn]
            · rw [List.map_map]
              exact enumFrom_update_frame acc vb.vertices 0
    · simp [processGeom, hn] at h

theorem passStep_frame (st st' : PassState) (sm : RSubmesh)
    (h : passStep st sm = some st') :
    optGeomFrame st.sg st'.sg ∧ optGeomFrame st.svd st'.svd ∧
    ∃ sm', st'.done = st.done ++ [sm'] ∧ submeshFrame sm sm' := by
  rcases hpg : processGeom (resolveGeometry st.sg st.svd sm) sm.faces with _ | og
  · simp [passStep, hpg] at h
  · rcases og with _ | ⟨g', c⟩
    · simp only [passStep, hpg] at h
      have hx := Option.some.inj h
      subst hx
      exact ⟨optGeomFrame_refl _, optGeomFrame_refl _, sm, rfl, submeshFrame_refl sm⟩
    · by_cases hsh : sm.usesharedvertices
      · rcases hsg : st.sg with _ | a
        · rcases hsvd : st.svd with _ | b
          · rw [resolveGeometry, if_pos hsh, hsg, hsvd] at hpg
            simp [processGeom, optOr] at hpg
          · rw [resolveGeometry, if_pos hsh, hsg, hsvd] at hpg
            simp only [optOr] at hpg
            simp only [passStep, resolveGeometry, if_pos hsh, hsg, hsvd, optOr,
              hpg, hsh, if_true] at h
            have hx := Option.some.inj h
            subst hx
            exact ⟨trivial, processGeom_frame b g' c sm.faces hpg, sm, rfl,
              submeshFrame_refl sm⟩
        · rw [resolveGeometry, if_pos hsh, hsg] at hpg
          simp only [optOr] at hpg
          simp only [passStep, resolveGeometry, if_pos hsh, hsg, optOr,
            hpg, hsh, if_true] at h
          have hx := Option.some.inj h
          subst hx
          exact ⟨processGeom_frame a g' c sm.faces hpg, optGeomFrame_refl _, sm,
            rfl, submeshFrame_refl sm⟩
      · rw [resolveGeometry, if_neg hsh] at hpg
        rcases hgeo : sm.geometry with _ | b
        · rw [hgeo] at hpg
          simp [processGeom] at hpg
        · rw [hgeo] at hpg
          simp only [passStep, resolveGeometry, if_neg hsh, hgeo, hpg,
            Bool.not_eq_true] at h
          have hx := Option.some.inj h
          subst hx
          refine ⟨optGeomFrame_refl _, optGeomFrame_refl _,
            { sm with geometry := some g' }, rfl, rfl, rfl, ?_⟩
          rw [hgeo]
          exact processGeom_frame b g' c sm.faces hpg

theorem passFold_none (subs : List RSubmesh) :
    subs.foldl (fun st? sm => st?.bind (fun s => passStep s sm)) none = none := by
  induction subs with
  | nil => rfl
  | cons sm t ih => simpa using ih

theorem passFold_frame (subs : List RSubmesh) :
    ∀ st st' : PassState,
      subs.foldl (fun st? sm => st?.bind (fun s => passStep s sm)) (some st) =
        some st' →
      optGeomFrame st.sg st'.sg ∧ optGeomFrame st.svd st'.svd ∧
      ∃ l, st'.done = st.done ++ l ∧ List.Forall₂ submeshFrame subs l := by
  induction subs with
  | nil =>
    intro st st' h
    simp only [List.foldl_nil, Option.some.injEq] at h
    rw [← h]
    exact ⟨optGeomFrame_refl _, optGeomFrame_refl _, [], by simp, .nil⟩
  | cons sm t ih =>
    intro st st' h
    rw [List.foldl_cons] at h
    rcases hstep : passStep st sm with _ | st₁
    · rw [Option.some_bind, hstep] at h
      rw [passFold_none] at h
      cases h
    · rw [Option.some_bind, hstep] at h
      obtain ⟨h1, h2, sm', hdone, hsm⟩ := passStep_frame st st₁ sm hstep
      obtain ⟨h1', h2', l, hdone', hl⟩ := ih st₁ st' h
      exact ⟨optGeomFrame_trans _ _ _ h1 h1', optGeomFrame_trans _ _ _ h2 h2',
        sm' :: l, by rw [hdone', hdone]; simp, .cons hsm hl⟩

/-- Claim C9: the recalculation pass rewrites only normal fields — a
successful pass yields a document identical to the input except
possibly in the vertices' normal fields (positions, extra children,
attributes, element structure and submesh order all preserved) — and
when a vertex with positive face count lacked a normal field, one is
created for it. -/
theorem C9_normals_only_frame (m m' : RMesh) (c : Nat)
    (h : runPass m = some (m', c)) :
    meshFrame m m' ∧
    (∀ (acc : NormAcc) (i : Nat) (v : RVertex),
      0 < acc.vfc i → ((updateVertex acc i v).1.normal).isSome = true) := by
  constructor
  · rw [runPass] at h
    rcases hf : m.submeshes.foldl
        (fun st? sm => st?.bind (fun s => passStep s sm))
        (some { sg := m.sharedgeometry, svd := m.sharedvertexdata,
                done := [], total := 0 }) with _ | st
    · rw [hf] at h; cases h
    · rw [hf] at h
      simp only [Option.map_some', Option.some.injEq, Prod.mk.injEq] at h
      obtain ⟨hm', _⟩ := h
      obtain ⟨h1, h2, l, hdone, hl⟩ := passFold_frame m.submeshes _ st hf
      rw [← hm']
      exact ⟨h1, h2, by simpa [hdone] using hl⟩
  · intro acc i v hvfc
    simp [updateVertex, hvfc]

/-- A one-submesh document with no geometry anywhere: the pass skips
the submesh and succeeds, returning the document unchanged. -/
noncomputable def mC9 : RMesh :=
  { sharedgeometry := none, sharedvertexdata := none
  , submeshes := [{ usesharedvertices := false, geometry := none, faces := none }] }

theorem C9_normals_only_frame_witness : meshFrame mC9 mC9 :=
  (C9_normals_only_frame mC9 mC9 0 rfl).1

/-- The single triangle `(0,0,0), (1,0,0), (0,1,0)` with a
normals-declaring buffer and one face over its three vertices. -/
noncomputable def triGeom : RGeometry :=
  { attrs := []
  , vertexbuffers :=
      [ { normalsAttr := some "true", attrs := []
        , vertices :=
            [ { position := some ⟨0, 0, 0⟩, normal := none, extra := [] }
            , { position := some ⟨1, 0, 0⟩, normal := none, extra := [] }
            , { position := some ⟨0, 1, 0⟩, normal := none, extra := [] } ] } ] }

/-- Claim C6: the face normal is `normalize(cross(p2 − p1, p3 − p1))`;
whenever the vector's length is at or below the `1e-6` threshold the
fallback `(0,0,1)` is returned instead of dividing; and recalculation
on the single triangle `(0,0,0), (1,0,0), (0,1,0)` gives all three
vertices the unit normal `(0,0,1)`. -/
theorem C6_face_normal :
    (∀ v1 v2 v3 : Vector3,
      calculate_face_normal v1 v2 v3 = ((v2.sub v1).cross (v3.sub v1)).normalize) ∧
    (∀ w : Vector3, w.length ≤ 1e-6 → w.normalize = ⟨0, 0, 1⟩) ∧
    processGeom (some triGeom) (some [⟨0, 1, 2⟩]) =
      some (some
        ({ attrs := []
         , vertexbuffers :=
            [ { normalsAttr := some "true", attrs := []
              , vertices :=
                  [ { position := some ⟨0, 0, 0⟩, normal := some ⟨0, 0, 1⟩, extra := [] }
                  , { position := some ⟨1, 0, 0⟩, normal := some ⟨0, 0, 1⟩, extra := [] }
                  , { position := some ⟨0, 1, 0⟩, normal := some ⟨0, 0, 1⟩, extra := [] } ] } ] },
         3)) := by
  have h1 : Vector3.normalize ⟨0, 0, 1⟩ = ⟨0, 0, 1⟩ := by
    have hs : Real.sqrt ((0 : ℝ) * 0 + 0 * 0 + 1 * 1) = 1 := by norm_num
    unfold Vector3.normalize Vector3.length
    rw [hs, if_pos (by norm_num)]
    norm_num
  refine ⟨fun v1 v2 v3 => rfl, ?_, ?_⟩
  · intro w h
    unfold Vector3.normalize
    rw [if_neg (not_lt.2 h)]
  · have hfn : calculate_face_normal ⟨0, 0, 0⟩ ⟨1, 0, 0⟩ ⟨0, 1, 0⟩ = ⟨0, 0, 1⟩ := by
      norm_num [calculate_face_normal, Vector3.sub, Vector3.cross, h1]
    norm_num [processGeom, triGeom, positionsOf, accumFold, accumFace, pyIdx,
      initNormAcc, updateVertex, Vector3.smul, Vector3.add, hfn, h1,
      List.enum, List.enumFrom, show Int.toNat 0 = 0 from rfl,
      show Int.toNat 1 = 1 from rfl, show Int.toNat 2 = 2 from rfl]

theorem C6_face_normal_witness :
    Vector3.length ⟨0, 0, 0⟩ ≤ 1e-6 ∧ Vector3.normalize ⟨0, 0, 0⟩ = ⟨0, 0, 1⟩ := by
  have h : Vector3.length ⟨0, 0, 0⟩ ≤ 1e-6 := by
    norm_num [Vector3.length]
  exact ⟨h, C6_face_normal.2.1 ⟨0, 0, 0⟩ h⟩

end Claims2
